import Mathlib

/-
  Verification development for the AIChat-System strategy orchestration engine
  (backend/strategy_engine.py, backend/mcp_executor.py, backend/mcp_tool_manager.py,
  backend/models.py, backend/integration_engine.py).

  The Python code is shallowly embedded: JSON-decoded Python values become the
  inductive type `PyVal`; raising an exception becomes `Except.error`; external
  collaborators (json.loads, the LLM transport, the system-prompt store, the MCP
  HTTP clients) become explicit parameters, so that each embedded function is a
  pure, executable Lean function.
-/

set_option maxHeartbeats 1000000

namespace AIChat

/-- Python values that can result from `json.loads` (and the tool payloads that
flow through the executor): None, bool, int, str, list, dict with string keys.
Floats do not occur in any claim and are omitted. -/
inductive PyVal where
  | none_ : PyVal
  | bool_ : Bool → PyVal
  | int_ : Int → PyVal
  | str_ : String → PyVal
  | list_ : List PyVal → PyVal
  | dict_ : List (String × PyVal) → PyVal

/-- Python truthiness (`if x:`) for `PyVal`. -/
def pyTruthy : PyVal → Bool
  | .none_ => false
  | .bool_ b => b
  | .int_ n => n != 0
  | .str_ s => s ≠ ""
  | .list_ xs => !xs.isEmpty
  | .dict_ kvs => !kvs.isEmpty

/-- Python `d.get(k, dflt)` on a string-keyed dict. A real Python dict has at
most one entry per key, so taking the first match is faithful. -/
def pyDictGet (kvs : List (String × PyVal)) (k : String) (dflt : PyVal) : PyVal :=
  match kvs.find? (fun kv => kv.1 == k) with
  | some kv => kv.2
  | none => dflt

/-- Python `x in d` / `x in s` for a string-keyed dict or a set of strings:
a non-string (hashable) value never equals a string key. -/
def pyKeyMatches : PyVal → String → Bool
  | .str_ s, k => s == k
  | _, _ => false

/-- Whether a Python value is hashable (lists and dicts are not; using one as a
dict-membership probe raises TypeError). -/
def pyHashable : PyVal → Bool
  | .list_ _ => false
  | .dict_ _ => false
  | _ => true

/-- Python `str()` of an atomic value, as interpolated by an f-string.
The list/dict branches are unreachable in this development: the executor
rejects unhashable tool names before ever formatting them. -/
def pyStrAtom : PyVal → String
  | .str_ s => s
  | .int_ n => toString n
  | .bool_ true => "True"
  | .bool_ false => "False"
  | .none_ => "None"
  | .list_ _ => ""
  | .dict_ _ => ""

/-- Lower-case hex digit, for JSON control-character escapes. -/
def hexDigit (n : Nat) : Char :=
  if n < 10 then Char.ofNat (48 + n) else Char.ofNat (87 + n)

/-- Escaping of one character inside a JSON string, as `json.dumps` with
`ensure_ascii=False` does it: only the two mandatory escapes, the five
shorthand control escapes, and `\u00XX` for the remaining control characters. -/
def jsonEscapeChar (c : Char) : String :=
  if c = '"' then "\\\""
  else if c = '\\' then "\\\\"
  else if c = '\n' then "\\n"
  else if c = '\r' then "\\r"
  else if c = '\t' then "\\t"
  else if c = '\x08' then "\\b"
  else if c = '\x0c' then "\\f"
  else if c.toNat < 32 then
    "\\u00" ++ String.singleton (hexDigit (c.toNat / 16)) ++ String.singleton (hexDigit (c.toNat % 16))
  else String.singleton c

/-- A JSON string literal for `s`, per `json.dumps(..., ensure_ascii=False)`. -/
def jsonQuote (s : String) : String :=
  "\"" ++ String.join (s.toList.map jsonEscapeChar) ++ "\""

mutual

/-- `json.dumps(v, ensure_ascii=False)` with the default separators
`", "` and `": "`, as used at mcp_executor.py:117. -/
def jsonDumps : PyVal → String
  | .none_ => "null"
  | .bool_ true => "true"
  | .bool_ false => "false"
  | .int_ n => toString n
  | .str_ s => jsonQuote s
  | .list_ xs => "[" ++ jsonDumpsList xs ++ "]"
  | .dict_ kvs => "\x7b" ++ jsonDumpsDict kvs ++ "\x7d"

/-- Comma-joined serialization of the elements of a JSON array. -/
def jsonDumpsList : List PyVal → String
  | [] => ""
  | [x] => jsonDumps x
  | x :: y :: xs => jsonDumps x ++ ", " ++ jsonDumpsList (y :: xs)

/-- Comma-joined serialization of the entries of a JSON object. -/
def jsonDumpsDict : List (String × PyVal) → String
  | [] => ""
  | [kv] => jsonQuote kv.1 ++ ": " ++ jsonDumps kv.2
  | kv :: kv2 :: kvs => jsonQuote kv.1 ++ ": " ++ jsonDumps kv.2 ++ ", " ++ jsonDumpsDict (kv2 :: kvs)

end

/-- models.py `DetailedStep`. `step`, `tool` and `reason` are dynamically typed
in Python (the planner stores whatever the plan JSON contained), so they are
`PyVal` here; the run-time fields start as Python `None`. -/
structure DetailedStep where
  step : PyVal
  tool : PyVal
  reason : PyVal
  input : Option String := none
  output : Option PyVal := none
  execution_time_ms : Option ℚ := none
  debug_info : Option PyVal := none

/-- models.py `DetailedStrategy` (the fields the orchestration core touches). -/
structure DetailedStrategy where
  steps : List DetailedStep
  strategy_llm_prompt : Option String := none
  strategy_llm_response : Option String := none
  parse_error : Bool := false
  parse_error_message : Option String := none
  raw_response : Option String := none

/-- models.py `DetailedStrategy.is_executed` (line 100-102):
`all(step.execution_time_ms is not None for step in self.steps) if self.steps else False`.
Note it checks `execution_time_ms`, not `output`, and returns False for an
empty steps list. -/
def DetailedStrategy.is_executed (s : DetailedStrategy) : Bool :=
  if s.steps.isEmpty then false
  else s.steps.all (fun st => st.execution_time_ms.isSome)

/-- mcp_tool_manager.py `MCPTool` (lines 8-17). Note: the dataclass declares
no `system_prompt` field. -/
structure MCPTool where
  tool_key : String
  tool_name : String
  description : String
  mcp_server_name : String
  remarks : Option String := none
  enabled : Bool := true
  available : Bool := false

/-- One row of the catalog JSON served by the MCP-Management API, as read by
`MCPTool.from_dict` via `data.get(...)`: every field may be absent. -/
structure CatalogRow where
  tool_key : Option String := none
  tool_name : Option String := none
  description : Option String := none
  mcp_server_name : Option String := none
  remarks : Option String := none
  enabled : Option Bool := none
  available : Option Bool := none

/-- mcp_tool_manager.py `MCPTool.from_dict` (lines 31-42), with its defaults:
`enabled` defaults to True, `available` to False, `mcp_server_name` to
"Unknown". -/
def MCPTool.from_dict (d : CatalogRow) : MCPTool :=
  { tool_key := d.tool_key.getD ""
    tool_name := d.tool_name.getD ""
    description := d.description.getD ""
    mcp_server_name := d.mcp_server_name.getD "Unknown"
    remarks := d.remarks
    enabled := d.enabled.getD true
    available := d.available.getD false }

/-- Python dict insertion on an association list: an existing key is updated in
place, a new key is appended (dict insertion order). -/
def assocInsert (m : List (String × MCPTool)) (k : String) (v : MCPTool) :
    List (String × MCPTool) :=
  if m.any (fun kv => kv.1 == k) then
    m.map (fun kv => if kv.1 == k then (k, v) else kv)
  else m ++ [(k, v)]

/-- Python dict lookup on an association list. -/
def assocFind : List (String × MCPTool) → String → Option MCPTool
  | [], _ => none
  | kv :: rest, k => if kv.1 == k then some kv.2 else assocFind rest k

/-- One iteration of the row loop in `_load_registered_tools`:
`self.registered_tools[tool.tool_key] = tool`. -/
def loadRow (m : List (String × MCPTool)) (row : CatalogRow) : List (String × MCPTool) :=
  assocInsert m (MCPTool.from_dict row).tool_key (MCPTool.from_dict row)

/-- mcp_tool_manager.py `_load_registered_tools` (lines 66-85): each catalog row
becomes an `MCPTool` stored under its `tool_key` in `registered_tools`. -/
def load_registered_tools (rows : List CatalogRow) : List (String × MCPTool) :=
  rows.foldl loadRow []

/-- One iteration of the server loop in `_check_tool_availability`: when the
probe of `server` succeeded, every tool owned by `server` gets
`available := true`; the probe never sets `available` to false. -/
def checkServer (m : List (String × MCPTool)) (server : String) (probeOk : Bool) :
    List (String × MCPTool) :=
  if probeOk then
    m.map (fun kv =>
      if kv.2.mcp_server_name == server then (kv.1, { kv.2 with available := true }) else kv)
  else m

/-- mcp_tool_manager.py `_check_tool_availability` (lines 87-110): exactly the
two hard-coded servers are probed; `live s` is true when the GET on server `s`
returned HTTP 200 (a timeout or exception counts as false). -/
def check_tool_availability (live : String → Bool) (m : List (String × MCPTool)) :
    List (String × MCPTool) :=
  checkServer (checkServer m "ProductMaster MCP" (live "ProductMaster MCP"))
    "CRM MCP" (live "CRM MCP")

/-- mcp_tool_manager.py `_initialize_enabled_status` (lines 112-119): the
`enabled_tools` set is the set of keys whose tool is currently `available`. -/
def initialize_enabled_status (m : List (String × MCPTool)) : List String :=
  (m.filter (fun kv => kv.2.available)).map (fun kv => kv.1)

/-- mcp_tool_manager.py `MCPToolManager.initialize` (lines 51-64): load the
catalog, probe availability, then derive the enabled set. Returns
(`registered_tools`, `enabled_tools`). -/
def managerInit (rows : List CatalogRow) (live : String → Bool) :
    List (String × MCPTool) × List String :=
  let m := check_tool_availability live (load_registered_tools rows)
  (m, initialize_enabled_status m)

/-- In-place flip of the `enabled` flag of the entry stored under `k`. -/
def toggleEntry (k : String) (p : String × MCPTool) : String × MCPTool :=
  if p.1 == k then (p.1, { p.2 with enabled := !p.2.enabled }) else p

/-- mcp_tool_manager.py `toggle_tool_enabled` (lines 138-147): unknown key is a
no-op returning False; otherwise the tool's `enabled` flag is flipped in place
and the new value returned. -/
def toggle_tool_enabled (m : List (String × MCPTool)) (k : String) :
    Bool × List (String × MCPTool) :=
  match assocFind m k with
  | none => (false, m)
  | some t => (!t.enabled, m.map (toggleEntry k))

/-- strategy_engine.py line 176 reads `tool.system_prompt`, but
`MCPTool` (mcp_tool_manager.py lines 8-17) declares no `system_prompt`
field, so the attribute lookup raises AttributeError. -/
def mcpToolSystemPrompt (_t : MCPTool) : Except String PyVal :=
  .error "AttributeError: \x27MCPTool\x27 object has no attribute \x27system_prompt\x27"

/-- The f-string at strategy_engine.py lines 170-173 for one enabled tool. -/
def renderToolInfo (tool_key : String) (t : MCPTool) : String :=
  "ツール名: " ++ t.tool_name ++ "\nツールキー: " ++ tool_key ++
    "\n説明: " ++ t.description ++ "\nサーバー: " ++ t.mcp_server_name

/-- The per-tool loop of `_generate_tools_description_from_manager`
(strategy_engine.py lines 167-179): disabled tools are skipped; for an enabled
tool the info block is built and then `tool.system_prompt` is consulted, which
raises (see `mcpToolSystemPrompt`). -/
def toolsInfoLoop : List (String × MCPTool) → Except String (List String)
  | [] => .ok []
  | kv :: rest =>
      if kv.2.enabled then
        match mcpToolSystemPrompt kv.2 with
        | .error e => .error e
        | .ok sp =>
            let info := renderToolInfo kv.1 kv.2 ++
              (if pyTruthy sp then "\nシステム指示: " ++ pyStrAtom sp else "")
            match toolsInfoLoop rest with
            | .error e => .error e
            | .ok infos => .ok (info :: infos)
      else toolsInfoLoop rest

/-- strategy_engine.py `_generate_tools_description_from_manager`
(lines 162-181): with no enabled tool it returns the fixed no-tools message;
otherwise it enters the loop (and, as written, raises at the first enabled
tool). The filter consults only `enabled`, never `available`. -/
def generate_tools_description (tools : List (String × MCPTool)) : Except String String :=
  if !(tools.any (fun kv => kv.2.enabled)) then
    .ok "現在利用可能なMCPツールはありません。"
  else
    match toolsInfoLoop tools with
    | .error e => .error e
    | .ok infos => .ok (String.intercalate "\r\n\r\n" infos)

/-- Observable effects of one `plan_strategy` run: the planning LLM call, each
`json.loads` attempt (with the text it was attempted on), and the repair LLM
call made inside `_fix_parse_error_with_llm`. -/
inductive PlanEvent where
  | llmCall : PlanEvent
  | parseAttempt : String → PlanEvent
  | repairLLMCall : PlanEvent
deriving DecidableEq, Repr

/-- The external collaborators of `StrategyEngine.plan_strategy`, made explicit:
the system-prompt store (`get_system_prompt_by_key`, which raises
HTTPException on DB failure — `Except.error`), the two LLM calls
(`llm_util.call_claude`, which may raise), `json.loads` (`.error` carries the
JSONDecodeError message), and the manager's `registered_tools`. -/
structure PlanEnv where
  plan_prompt : Except String String
  llm_response : Except String String
  loads : String → Except String PyVal
  fix_prompt : Except String String
  fix_llm : String → String → Except String String
  tools : List (String × MCPTool)

/-- strategy_engine.py `_fix_parse_error_with_llm` (lines 132-160): everything
is inside one try/except, so a failing prompt fetch or a raising repair call
falls back to the original response; an empty repair prompt returns the
original without calling the LLM; a successful repair call returns the
stripped text. The event list records whether the repair LLM was invoked. -/
def fix_parse_error (env : PlanEnv) (errMsg original : String) : String × List PlanEvent :=
  match env.fix_prompt with
  | .error _ => (original, [])
  | .ok p =>
      if p = "" then (original, [])
      else
        match env.fix_llm errMsg original with
        | .error _ => (original, [.repairLLMCall])
        | .ok t => (t.trim, [.repairLLMCall])

/-- `strategy_data.get("steps", [])` at strategy_engine.py lines 76/105: on a
dict the key is read with default `[]`; any non-dict top-level JSON value has
no `.get` attribute and raises AttributeError. -/
def pyGetSteps : PyVal → Except String PyVal
  | .dict_ kvs => .ok (pyDictGet kvs "steps" (.list_ []))
  | .list_ _ => .error "AttributeError: \x27list\x27 object has no attribute \x27get\x27"
  | .str_ _ => .error "AttributeError: \x27str\x27 object has no attribute \x27get\x27"
  | .int_ _ => .error "AttributeError: \x27int\x27 object has no attribute \x27get\x27"
  | .bool_ _ => .error "AttributeError: \x27bool\x27 object has no attribute \x27get\x27"
  | .none_ => .error "AttributeError: \x27NoneType\x27 object has no attribute \x27get\x27"

/-- Materialization of one `DetailedStep` from one element of the steps array
(strategy_engine.py lines 80-88 and 108-117): on a dict the `.get` reads of
`step`/`tool`/`reason` succeed, but the constructor call then passes the
keyword `step_execution_debug={}`, a field `models.DetailedStep`
(models.py lines 21-35, which declares `debug_info` instead) does not
declare — so the dataclass `__init__` raises TypeError for every dict
element. A non-dict element has no `.get` and raises AttributeError first.
Neither exception is caught (the surrounding try handles only
json.JSONDecodeError), so no step is ever successfully materialized. -/
def buildStep : PyVal → Except String DetailedStep
  | .dict_ _ =>
      .error "TypeError: __init__() got an unexpected keyword argument \x27step_execution_debug\x27"
  | .list_ _ => .error "AttributeError: \x27list\x27 object has no attribute \x27get\x27"
  | .str_ _ => .error "AttributeError: \x27str\x27 object has no attribute \x27get\x27"
  | .int_ _ => .error "AttributeError: \x27int\x27 object has no attribute \x27get\x27"
  | .bool_ _ => .error "AttributeError: \x27bool\x27 object has no attribute \x27get\x27"
  | .none_ => .error "AttributeError: \x27NoneType\x27 object has no attribute \x27get\x27"

/-- `for step_data in steps:` over the value read for "steps"
(strategy_engine.py lines 79-89): a list iterates its elements; iterating a
string yields its characters and iterating a dict yields its keys, so a
non-empty one raises on the first `.get`; ints, bools and None are not
iterable (TypeError). -/
def buildSteps : PyVal → Except String (List DetailedStep)
  | .list_ xs =>
      xs.foldr (fun x acc =>
        match buildStep x with
        | .error e => .error e
        | .ok st =>
            match acc with
            | .error e => .error e
            | .ok sts => .ok (st :: sts)) (.ok [])
  | .str_ s =>
      if s = "" then .ok []
      else .error "AttributeError: \x27str\x27 object has no attribute \x27get\x27"
  | .dict_ kvs =>
      if kvs.isEmpty then .ok []
      else .error "AttributeError: \x27str\x27 object has no attribute \x27get\x27"
  | .int_ _ => .error "TypeError: \x27int\x27 object is not iterable"
  | .bool_ _ => .error "TypeError: \x27bool\x27 object is not iterable"
  | .none_ => .error "TypeError: \x27NoneType\x27 object is not iterable"

/-- strategy_engine.py `plan_strategy` (lines 32-130). The strategy is mutated
in place; here the updated strategy is returned together with the list of
observable `PlanEvent`s, and `.error` models an exception escaping the call.
Only `json.JSONDecodeError` is caught by the two except clauses, so a
shape error (AttributeError/TypeError) while extracting steps propagates. -/
def plan_strategy (env : PlanEnv) (strategy : DetailedStrategy) :
    Except String (DetailedStrategy × List PlanEvent) :=
  match env.plan_prompt with
  | .error e => .error e
  | .ok base_prompt =>
      if base_prompt = "" then .error "strategy_planning が空です"
      else
        match generate_tools_description env.tools with
        | .error e => .error e
        | .ok tools_description =>
            let system_prompt :=
              base_prompt ++ "\r\n\r\n## 利用可能なMCPツール\r\n" ++ tools_description
            match env.llm_response with
            | .error e => .error e
            | .ok response =>
                let strategy :=
                  { strategy with
                    strategy_llm_prompt := some system_prompt
                    strategy_llm_response := some response
                    raw_response := some response }
                match env.loads response with
                | .ok data =>
                    (match pyGetSteps data with
                     | .error e => .error e
                     | .ok steps =>
                         match buildSteps steps with
                         | .error e => .error e
                         | .ok dsteps =>
                             .ok ({ strategy with steps := dsteps },
                                  [.llmCall, .parseAttempt response]))
                | .error e1 =>
                    let fixres := fix_parse_error env e1 response
                    let fixed := fixres.1
                    let evs := [PlanEvent.llmCall, .parseAttempt response] ++ fixres.2 ++
                      [.parseAttempt fixed]
                    match env.loads fixed with
                    | .ok data =>
                        (match pyGetSteps data with
                         | .error e => .error e
                         | .ok steps =>
                             match buildSteps steps with
                             | .error e => .error e
                             | .ok dsteps =>
                                 .ok ({ strategy with
                                        steps := dsteps
                                        strategy_llm_response := some fixed }, evs))
                    | .error e2 =>
                        .ok ({ strategy with
                               steps := []
                               parse_error := true
                               parse_error_message := some ("修正後も解析失敗: " ++ e2) }, evs)

/-- Outcome of `client.call_tool` as seen through the executor's try/except:
either a returned payload or a raised exception with its message. -/
inductive CallOutcome where
  | ok : PyVal → CallOutcome
  | exn : String → CallOutcome

/-- The executor's collaborators (mcp_executor.py): the discovered tool table
`available_tools` (tool key to owning server, as filled by `discover_tools`),
the `enabled_tools` set, the fixed `mcp_clients` table (its keys), and the two
suspending calls `health_check` (which may itself raise) and `call_tool`. -/
structure ExecEnv where
  available_tools : List (String × String)
  enabled_tools : List String
  clients : List String
  health : String → Except String Bool
  call : String → String → CallOutcome

/-- mcp_executor.py `execute_tool_directly` (lines 123-143). The dict
membership tests raise TypeError on an unhashable tool name; an unknown or
disabled tool yields an error dict; the client lookup
`self.mcp_clients[mcp_server_name]` is outside the try block, so a missing
client raises KeyError; inside the try block, a failing health check yields
the unavailable error dict and any exception becomes `{"error": str(e)}`. -/
def execute_tool_directly (env : ExecEnv) (tool_name : PyVal) (tool_input : String) :
    Except String PyVal :=
  if !pyHashable tool_name then
    .error "TypeError: unhashable type"
  else if !(env.available_tools.any (fun kv => pyKeyMatches tool_name kv.1)) then
    .ok (.dict_ [("error", .str_ ("Tool \x27" ++ pyStrAtom tool_name ++ "\x27 not available"))])
  else if !(env.enabled_tools.any (fun k => pyKeyMatches tool_name k)) then
    .ok (.dict_ [("error", .str_ ("Tool \x27" ++ pyStrAtom tool_name ++ "\x27 not enabled"))])
  else
    match env.available_tools.find? (fun kv => pyKeyMatches tool_name kv.1) with
    | none => .error "KeyError"
    | some kv =>
        let server := kv.2
        if !(env.clients.any (fun c => c == server)) then
          .error ("KeyError: \x27" ++ server ++ "\x27")
        else
          match env.health server with
          | .error e => .ok (.dict_ [("error", .str_ e)])
          | .ok true =>
              match env.call (pyStrAtom tool_name) tool_input with
              | .ok v => .ok v
              | .exn e => .ok (.dict_ [("error", .str_ e)])
          | .ok false => .ok (.dict_ [("error", .str_ "MCP server unavailable")])

/-- `{k: v for k, v in result.items() if k != "debug_info"} if isinstance(result, dict) else result`
(mcp_executor.py line 116): the debug payload is stripped from a dict result
before it is serialized as the next step's input. -/
def stripDebugInfo : PyVal → PyVal
  | .dict_ kvs => .dict_ (kvs.filter (fun kv => kv.1 ≠ "debug_info"))
  | v => v

/-- `result.get("debug_info", {}) if isinstance(result, dict) else {}`
(mcp_executor.py line 113). -/
def resultDebugInfo : PyVal → PyVal
  | .dict_ kvs => pyDictGet kvs "debug_info" (.dict_ [])
  | _ => .dict_ []

/-- The step loop of `execute_strategy` (mcp_executor.py lines 103-119),
threading `current_input` and recording each `execute_tool_directly`
invocation (tool, input) in order. `dur i` is the wall-clock duration measured
for the i-th executed step (counting from `i0`). -/
def execSteps (env : ExecEnv) (dur : Nat → ℚ) :
    Nat → String → List DetailedStep → Except String (List DetailedStep × List (PyVal × String))
  | _, _, [] => .ok ([], [])
  | i, current_input, st :: rest =>
      match execute_tool_directly env st.tool current_input with
      | .error e => .error e
      | .ok result =>
          let st2 :=
            { st with
              input := some current_input
              output := some result
              execution_time_ms := some (dur i)
              debug_info := some (resultDebugInfo result) }
          let next_input := jsonDumps (stripDebugInfo result)
          match execSteps env dur (i + 1) next_input rest with
          | .error e => .error e
          | .ok (rest2, tr) => .ok (st2 :: rest2, (st.tool, current_input) :: tr)

/-- mcp_executor.py `execute_strategy` (lines 81-121). When
`strategy.parse_error` is set, the code reads `strategy.steps[0]` — an
IndexError when the steps list is empty — and otherwise overwrites that
step's fields with a parse-error payload without invoking any tool. When
`parse_error` is not set, the step loop runs. The returned trace lists the
tool invocations in order. -/
def execute_strategy (env : ExecEnv) (dur : Nat → ℚ) (strategy : DetailedStrategy)
    (user_message : String) :
    Except String (DetailedStrategy × List (PyVal × String)) :=
  let optStr : Option String → PyVal := fun o =>
    match o with
    | some s => .str_ s
    | none => .none_
  if strategy.parse_error then
    match strategy.steps with
    | [] => .error "IndexError: list index out of range"
    | s0 :: rest =>
        let s0' :=
          { s0 with
            input := some user_message
            output := some (.dict_
              [("error", .str_ "戦略立案でJSON解析エラーが発生しました"),
               ("parse_error_message", optStr strategy.parse_error_message),
               ("raw_llm_response", optStr strategy.raw_response),
               ("suggestion", .str_ "システムプロンプトの改善が必要です")])
            execution_time_ms := some 0
            debug_info := some (.dict_
              [("parse_error", .bool_ true),
               ("error_message", optStr strategy.parse_error_message),
               ("raw_response", optStr strategy.raw_response)]) }
        .ok ({ strategy with steps := s0' :: rest }, [])
  else
    match execSteps env dur 0 user_message strategy.steps with
    | .error e => .error e
    | .ok (steps2, tr) => .ok ({ strategy with steps := steps2 }, tr)

/-- The two terminal paths of `IntegrationEngine.generate_final_response`. -/
inductive SynthRoute where
  | direct : SynthRoute
  | toolResult : SynthRoute
deriving DecidableEq, Repr

/-- The routing decision of integration_engine.py `generate_final_response`
(lines 28 and 59): the direct-answer path is taken when `parse_error` is set,
or when the steps list is empty, or when `is_executed()` is false; the
tool-result path otherwise. -/
def synthRoute (s : DetailedStrategy) : SynthRoute :=
  if s.parse_error then .direct
  else if s.steps.isEmpty || !s.is_executed then .direct
  else .toolResult

/-- Modelled from the spec (§8 P1): the expected sequence of step inputs —
the original user message for step 1, then the debug-stripped JSON
serialization of each previous step's output. Used only to compare the
executor against the spec's threading description. -/
def specStepInputs (user_message : String) (outputs : List PyVal) : List String :=
  (user_message :: outputs.map (fun o => jsonDumps (stripDebugInfo o))).take outputs.length

/-- The error payload shape used uniformly by the executor. -/
def errorDict (m : String) : PyVal :=
  .dict_ [("error", .str_ m)]

/-- A concrete tool used by witnesses (defaults: enabled, not available). -/
def toolA : MCPTool :=
  { tool_key := "get_product_details", tool_name := "商品詳細取得",
    description := "商品の詳細情報を取得する", mcp_server_name := "ProductMaster MCP" }

/-- Concrete executor environment: one discovered, enabled tool on a healthy
server whose tool call echoes its input inside a result payload. -/
def envOk : ExecEnv :=
  { available_tools := [("get_product_details", "productmaster")]
    enabled_tools := ["get_product_details"]
    clients := ["productmaster", "crm"]
    health := fun _ => .ok true
    call := fun _ inp => .ok (.dict_
      [("result", .str_ ("Widget:" ++ inp)), ("debug_info", .dict_ [("trace", .int_ 1)])]) }

/-- Concrete executor environment whose server fails its health check. -/
def envDown : ExecEnv :=
  { available_tools := [("get_product_details", "productmaster")]
    enabled_tools := ["get_product_details"]
    clients := ["productmaster"]
    health := fun _ => .ok false
    call := fun _ _ => .ok .none_ }

/-- Concrete executor environment whose tool call raises. -/
def envRaise : ExecEnv :=
  { available_tools := [("get_product_details", "productmaster")]
    enabled_tools := ["get_product_details"]
    clients := ["productmaster"]
    health := fun _ => .ok true
    call := fun _ _ => .exn "Connection timeout" }

/-- Concrete executor environment whose discovered tool is not enabled. -/
def envNotEnabled : ExecEnv :=
  { available_tools := [("get_product_details", "productmaster")]
    enabled_tools := []
    clients := ["productmaster"]
    health := fun _ => .ok true
    call := fun _ _ => .ok .none_ }

/-- A two-step strategy value in the shape the step-materialization code at
strategy_engine.py lines 80-88 intends (the second step references an unknown
tool, so executing it records an error payload). -/
def strategyTwoSteps : DetailedStrategy :=
  { steps :=
      [{ step := .int_ 1, tool := .str_ "get_product_details", reason := .str_ "商品検索",
         input := some "", output := some (.str_ ""), execution_time_ms := some 0,
         debug_info := some (.dict_ []) },
       { step := .int_ 2, tool := .str_ "unknown_tool", reason := .str_ "追加検索",
         input := some "", output := some (.str_ ""), execution_time_ms := some 0,
         debug_info := some (.dict_ []) }] }

/-- Concrete planner environment whose LLM response (and repaired response)
fails JSON parsing. -/
def envParseFail : PlanEnv :=
  { plan_prompt := .ok "あなたは戦略立案エンジンです。"
    llm_response := .ok "JSONでは回答できません。"
    loads := fun _ => .error "Expecting value: line 1 column 1 (char 0)"
    fix_prompt := .ok "厳密なJSONのみで再出力してください。"
    fix_llm := fun _ _ => .ok "やはりJSONで回答できません。"
    tools := [] }

/-- Concrete planner environment whose LLM response parses as a top-level
JSON array. -/
def envArrayResponse : PlanEnv :=
  { plan_prompt := .ok "あなたは戦略立案エンジンです。"
    llm_response := .ok "[]"
    loads := fun s => if s = "[]" then .ok (.list_ []) else .error "Expecting value"
    fix_prompt := .ok "厳密なJSONのみで再出力してください。"
    fix_llm := fun _ _ => .ok "[]"
    tools := [] }

/-- Concrete planner environment whose LLM response parses as a JSON object
with no "steps" key. -/
def envObjNoSteps : PlanEnv :=
  { plan_prompt := .ok "あなたは戦略立案エンジンです。"
    llm_response := .ok "OBJ"
    loads := fun s =>
      if s = "OBJ" then .ok (.dict_ [("plan", .str_ "なし")]) else .error "Expecting value"
    fix_prompt := .ok "厳密なJSONのみで再出力してください。"
    fix_llm := fun _ _ => .ok "OBJ"
    tools := [] }

/-- Concrete planner environment whose LLM response parses as a valid
one-step plan. -/
def envOneStepPlan : PlanEnv :=
  { plan_prompt := .ok "あなたは戦略立案エンジンです。"
    llm_response := .ok "PLAN_JSON"
    loads := fun s =>
      if s = "PLAN_JSON" then
        .ok (.dict_ [("steps", .list_
          [.dict_ [("step", .int_ 1), ("tool", .str_ "get_product_details"),
                   ("reason", .str_ "商品検索が必要")]])])
      else .error "Expecting value"
    fix_prompt := .ok "厳密なJSONのみで再出力してください。"
    fix_llm := fun _ _ => .ok "PLAN_JSON"
    tools := [] }

/-- A catalog row whose owning server never responds but whose row already
carries `available: true`. -/
def deadServerRow : CatalogRow :=
  { tool_key := some "ghost_tool", tool_name := some "Ghost",
    mcp_server_name := some "Dead MCP", available := some true }

/-- A catalog row on the ProductMaster server whose catalog entry says
`enabled: false`. -/
def pmDisabledRow : CatalogRow :=
  { tool_key := some "pm_tool", tool_name := some "PM",
    mcp_server_name := some "ProductMaster MCP", enabled := some false }

/- ===================== Helper lemmas ===================== -/

theorem specStepInputs_cons (msg : String) (v : PyVal) (outs : List PyVal) :
    specStepInputs msg (v :: outs) =
      msg :: specStepInputs (jsonDumps (stripDebugInfo v)) outs := by
  simp [specStepInputs, List.take_succ_cons]

theorem specStepInputs_nil (msg : String) : specStepInputs msg [] = [] := by
  simp [specStepInputs]

/- ===================== C5 ===================== -/

/-- C5 counterexample: the claim says a zero-step strategy is considered
executed (`is_executed()` true), but `DetailedStrategy.is_executed` returns
False for an empty steps list (`... if self.steps else False`). -/
theorem is_executed_false_on_empty_steps :
    DetailedStrategy.is_executed { steps := [] } = false := rfl

/-- C5 (amended): `is_executed()` returns true iff the steps list is non-empty
and every step has non-null `execution_time_ms` (not `output`); for a
zero-step strategy it returns false, but synthesis still takes the
direct-answer path for such a strategy because the steps list is empty. -/
theorem is_executed_iff_nonempty_and_timed (s : DetailedStrategy) :
    (s.is_executed = true ↔
      s.steps ≠ [] ∧ ∀ st ∈ s.steps, st.execution_time_ms ≠ none) ∧
    (s.steps = [] → synthRoute s = .direct) := by
  constructor
  · unfold DetailedStrategy.is_executed
    rcases hs : s.steps with _ | ⟨st, rest⟩
    · simp
    · simp only [List.isEmpty_cons, if_false, Bool.false_eq_true, List.all_eq_true]
      constructor
      · intro h
        refine ⟨by simp, ?_⟩
        intro st2 hst2
        have := h st2 hst2
        simpa [Option.isSome_iff_ne_none] using this
      · intro h st2 hst2
        have := h.2 st2 hst2
        simpa [Option.isSome_iff_ne_none] using this
  · intro h
    unfold synthRoute
    rcases hpe : s.parse_error
    · simp [h]
    · simp

/-- C5 witness: the zero-step strategy takes the direct-answer path. -/
theorem is_executed_iff_nonempty_and_timed_witness :
    synthRoute { steps := [] } = .direct :=
  (is_executed_iff_nonempty_and_timed { steps := [] }).2 rfl

/- ===================== C8 ===================== -/

theorem toggleEntry_of_ne (k : String) (p : String × MCPTool) (h : (p.1 == k) = false) :
    toggleEntry k p = p := by
  simp [toggleEntry, h]

theorem toggleEntry_of_eq (k : String) (p : String × MCPTool) (h : (p.1 == k) = true) :
    toggleEntry k p = (p.1, { p.2 with enabled := !p.2.enabled }) := by
  simp [toggleEntry, h]

theorem assocFind_cons (kv : String × MCPTool) (rest : List (String × MCPTool)) (k : String) :
    assocFind (kv :: rest) k = if kv.1 == k then some kv.2 else assocFind rest k := rfl

theorem assocFind_toggle_self (m : List (String × MCPTool)) (k : String) :
    assocFind (m.map (toggleEntry k)) k
      = (assocFind m k).map (fun t => { t with enabled := !t.enabled }) := by
  induction m with
  | nil => rfl
  | cons hd tl ih =>
      cases hhd : (hd.1 == k) with
      | false =>
          have hn : ¬ ((hd.1 == k) = true) := by simp [hhd]
          rw [List.map_cons, toggleEntry_of_ne k hd hhd, assocFind_cons, assocFind_cons,
            if_neg hn, if_neg hn]
          exact ih
      | true =>
          rw [List.map_cons, toggleEntry_of_eq k hd hhd, assocFind_cons, assocFind_cons,
            if_pos (show ((hd.1, { hd.2 with enabled := !hd.2.enabled }).1 == k) = true from hhd),
            if_pos hhd]
          rfl

theorem assocFind_toggle_other (m : List (String × MCPTool)) (k k2 : String) (h : k2 ≠ k) :
    assocFind (m.map (toggleEntry k)) k2 = assocFind m k2 := by
  induction m with
  | nil => rfl
  | cons hd tl ih =>
      cases hhd : (hd.1 == k) with
      | false =>
          rw [List.map_cons, toggleEntry_of_ne k hd hhd, assocFind_cons, assocFind_cons]
          cases hhd2 : (hd.1 == k2) with
          | false => simpa using ih
          | true => simp
      | true =>
          have hk : hd.1 = k := by simpa using hhd
          have hne : (hd.1 == k2) = false := by
            simp only [hk, beq_eq_false_iff_ne]
            exact fun he => h he.symm
          have hn2 : ¬ ((hd.1 == k2) = true) := by simp [hne]
          rw [List.map_cons, toggleEntry_of_eq k hd hhd, assocFind_cons, assocFind_cons,
            if_neg (show ¬ (((hd.1, { hd.2 with enabled := !hd.2.enabled }).1 == k2) = true)
              from hn2),
            if_neg hn2]
          exact ih

/-- C8: `toggle_tool_enabled` on an unknown key mutates nothing and returns
False; on a known key it flips that tool's `enabled` flag in place, returns
the new state, and leaves every other key's entry unchanged. -/
theorem toggle_tool_enabled_spec (m : List (String × MCPTool)) (k : String) :
    (assocFind m k = none → toggle_tool_enabled m k = (false, m)) ∧
    (∀ t, assocFind m k = some t →
      (toggle_tool_enabled m k).1 = !t.enabled ∧
      assocFind (toggle_tool_enabled m k).2 k = some { t with enabled := !t.enabled } ∧
      ∀ k2, k2 ≠ k → assocFind (toggle_tool_enabled m k).2 k2 = assocFind m k2) := by
  constructor
  · intro h
    unfold toggle_tool_enabled
    rw [h]
  · intro t ht
    unfold toggle_tool_enabled
    rw [ht]
    refine ⟨rfl, ?_, ?_⟩
    · rw [assocFind_toggle_self, ht]
      rfl
    · intro k2 hk2
      exact assocFind_toggle_other m k k2 hk2

/-- C8 witness: toggling a present key flips it and returns the new state;
toggling an absent key is a no-op returning False. -/
theorem toggle_tool_enabled_spec_witness :
    (toggle_tool_enabled [("get_product_details", toolA)] "get_product_details").1
        = !toolA.enabled ∧
    toggle_tool_enabled [] "missing" = (false, []) :=
  ⟨((toggle_tool_enabled_spec [("get_product_details", toolA)]
      "get_product_details").2 toolA rfl).1,
   (toggle_tool_enabled_spec [] "missing").1 rfl⟩

/- ===================== Executor lemmas ===================== -/

theorem execute_tool_directly_isOk (env : ExecEnv)
    (hwf : ∀ kv ∈ env.available_tools, kv.2 ∈ env.clients)
    (tool : PyVal) (ht : pyHashable tool = true) (inp : String) :
    ∃ v, execute_tool_directly env tool inp = .ok v := by
  unfold execute_tool_directly
  cases h1 : env.available_tools.any (fun kv => pyKeyMatches tool kv.1) with
  | false =>
      exact ⟨errorDict ("Tool \x27" ++ pyStrAtom tool ++ "\x27 not available"),
        by simp [ht, h1, errorDict]⟩
  | true =>
      cases h2 : env.enabled_tools.any (fun k => pyKeyMatches tool k) with
      | false =>
          exact ⟨errorDict ("Tool \x27" ++ pyStrAtom tool ++ "\x27 not enabled"),
            by simp [ht, h1, h2, errorDict]⟩
      | true =>
          have hfs : (env.available_tools.find? (fun kv => pyKeyMatches tool kv.1)).isSome := by
            rw [List.find?_isSome]
            obtain ⟨kv, hkv, hp⟩ := List.any_eq_true.mp h1
            exact ⟨kv, hkv, hp⟩
          obtain ⟨kv, hkv⟩ := Option.isSome_iff_exists.mp hfs
          have hmem : kv ∈ env.available_tools := List.mem_of_find?_eq_some hkv
          have hcl : kv.2 ∈ env.clients := hwf kv hmem
          have hany : env.clients.any (fun c => c == kv.2) = true :=
            List.any_eq_true.mpr ⟨kv.2, hcl, by simp⟩
          cases hh : env.health kv.2 with
          | error e => exact ⟨errorDict e, by simp [ht, h1, h2, hkv, hany, hh, errorDict]⟩
          | ok b =>
              cases b with
              | false =>
                  exact ⟨errorDict "MCP server unavailable",
                    by simp [ht, h1, h2, hkv, hany, hh, errorDict]⟩
              | true =>
                  cases hc : env.call (pyStrAtom tool) inp with
                  | ok v => exact ⟨v, by simp [ht, h1, h2, hkv, hany, hh, hc]⟩
                  | exn e => exact ⟨errorDict e, by simp [ht, h1, h2, hkv, hany, hh, hc, errorDict]⟩

theorem execSteps_spec (env : ExecEnv) (dur : Nat → ℚ)
    (hwf : ∀ kv ∈ env.available_tools, kv.2 ∈ env.clients) :
    ∀ (steps : List DetailedStep) (i : Nat) (cur : String),
      (∀ st ∈ steps, pyHashable st.tool = true) →
      ∃ steps2 tr,
        execSteps env dur i cur steps = .ok (steps2, tr) ∧
        steps2.map (fun st => st.tool) = steps.map (fun st => st.tool) ∧
        tr = steps2.map (fun st => (st.tool, st.input.getD "")) ∧
        (∀ st ∈ steps2, st.output.isSome = true) ∧
        steps2.map (fun st => st.input)
          = (specStepInputs cur (steps2.map (fun st => st.output.getD .none_))).map some := by
  intro steps
  induction steps with
  | nil =>
      intro i cur _
      exact ⟨[], [], rfl, rfl, rfl, by simp, by simp [specStepInputs_nil]⟩
  | cons st rest ih =>
      intro i cur hh
      obtain ⟨v, hv⟩ := execute_tool_directly_isOk env hwf st.tool (hh st (by simp)) cur
      obtain ⟨rest2, tr, hexec, htools, htr, hout, hin⟩ :=
        ih (i + 1) (jsonDumps (stripDebugInfo v)) (fun s hs => hh s (List.mem_cons_of_mem _ hs))
      refine ⟨({ st with
          input := some cur
          output := some v
          execution_time_ms := some (dur i)
          debug_info := some (resultDebugInfo v) } : DetailedStep) :: rest2,
        (st.tool, cur) :: tr, ?_, ?_, ?_, ?_, ?_⟩
      · simp only [execSteps, hv, hexec]
      · simp only [List.map_cons, htools]
      · simp only [List.map_cons, htr, Option.getD_some]
      · intro s hs
        rcases List.mem_cons.mp hs with hs | hs
        · rw [hs]
          rfl
        · exact hout s hs
      · simp only [List.map_cons]
        rw [specStepInputs_cons, List.map_cons]
        exact congrArg (fun l => some cur :: l) hin

/- ===================== C1 ===================== -/

/-- C1: for every strategy with `parse_error` false and steps `[s1, ..., sn]`
(whose tool names are hashable, as the data model declares) and a well-formed
executor environment, `execute_strategy` invokes the tools in exactly the
array order, sets step 1's input to the original user message, and sets each
subsequent step's input to the debug-stripped JSON serialization of the
previous step's output (`specStepInputs`). -/
theorem execute_strategy_threads_steps_in_order (env : ExecEnv) (dur : Nat → ℚ)
    (strategy : DetailedStrategy) (user_message : String)
    (hpe : strategy.parse_error = false)
    (hht : ∀ st ∈ strategy.steps, pyHashable st.tool = true)
    (hwf : ∀ kv ∈ env.available_tools, kv.2 ∈ env.clients) :
    ∃ s2 tr, execute_strategy env dur strategy user_message = .ok (s2, tr) ∧
      tr.map Prod.fst = strategy.steps.map (fun st => st.tool) ∧
      s2.steps.map (fun st => st.tool) = strategy.steps.map (fun st => st.tool) ∧
      s2.steps.map (fun st => st.input)
        = (specStepInputs user_message
            (s2.steps.map (fun st => st.output.getD .none_))).map some := by
  obtain ⟨steps2, tr, hexec, htools, htr, hout, hin⟩ :=
    execSteps_spec env dur hwf strategy.steps 0 user_message hht
  refine ⟨{ strategy with steps := steps2 }, tr, ?_, ?_, ?_, ?_⟩
  · unfold execute_strategy
    rw [hpe]
    simp only [Bool.false_eq_true, if_false, hexec]
  · rw [htr, List.map_map]
    simpa using htools
  · exact htools
  · exact hin

/-- C1 witness: a concrete two-step strategy against a healthy environment. -/
theorem execute_strategy_threads_steps_in_order_witness :
    ∃ s2 tr, execute_strategy envOk (fun _ => (0 : ℚ)) strategyTwoSteps "商品ABC123の詳細"
        = .ok (s2, tr) ∧
      tr.map Prod.fst = strategyTwoSteps.steps.map (fun st => st.tool) ∧
      s2.steps.map (fun st => st.tool) = strategyTwoSteps.steps.map (fun st => st.tool) ∧
      s2.steps.map (fun st => st.input)
        = (specStepInputs "商品ABC123の詳細"
            (s2.steps.map (fun st => st.output.getD .none_))).map some :=
  execute_strategy_threads_steps_in_order envOk (fun _ => (0 : ℚ)) strategyTwoSteps
    "商品ABC123の詳細" rfl (by decide) (by decide)

/- ===================== C3 ===================== -/

/-- C3 (code bug): a strategy with `parse_error` true and an empty steps list —
exactly what `plan_strategy` leaves behind when the repair parse also fails —
makes `execute_strategy` read `strategy.steps[0]` and raise IndexError,
contradicting the claim that the executor does nothing and never raises for
failed plans. -/
theorem executor_raises_on_empty_failed_plan :
    ∃ s evs, plan_strategy envParseFail { steps := [] } = .ok (s, evs) ∧
      s.parse_error = true ∧ s.steps = [] ∧
      execute_strategy envOk (fun _ => (0 : ℚ)) s "こんにちは"
        = .error "IndexError: list index out of range" := by
  refine ⟨_, _, rfl, rfl, rfl, rfl⟩

/- ===================== C6 ===================== -/

/-- C6: tool-not-found, tool-not-enabled, server-unavailable and raising tool
calls are each recorded as an error-shaped dict output of
`execute_tool_directly` (never a raised exception), and `execute_strategy`
on a parse-error-free strategy completes without raising, executes every
step (one trace entry per step, every output set), and threads each
step's input from the previous step's (possibly error-shaped) output. -/
theorem step_failure_recorded_and_execution_continues :
    (∀ (env : ExecEnv) (name : String) inp,
        env.available_tools.any (fun kv => pyKeyMatches (.str_ name) kv.1) = false →
        execute_tool_directly env (.str_ name) inp
          = .ok (errorDict ("Tool \x27" ++ name ++ "\x27 not available"))) ∧
    (∀ (env : ExecEnv) (name : String) inp,
        env.available_tools.any (fun kv => pyKeyMatches (.str_ name) kv.1) = true →
        env.enabled_tools.any (fun k => pyKeyMatches (.str_ name) k) = false →
        execute_tool_directly env (.str_ name) inp
          = .ok (errorDict ("Tool \x27" ++ name ++ "\x27 not enabled"))) ∧
    (∀ (env : ExecEnv) (name : String) inp kv,
        env.enabled_tools.any (fun k => pyKeyMatches (.str_ name) k) = true →
        env.available_tools.find? (fun kv2 => pyKeyMatches (.str_ name) kv2.1) = some kv →
        kv.2 ∈ env.clients →
        env.health kv.2 = .ok false →
        execute_tool_directly env (.str_ name) inp = .ok (errorDict "MCP server unavailable")) ∧
    (∀ (env : ExecEnv) (name : String) inp kv e,
        env.enabled_tools.any (fun k => pyKeyMatches (.str_ name) k) = true →
        env.available_tools.find? (fun kv2 => pyKeyMatches (.str_ name) kv2.1) = some kv →
        kv.2 ∈ env.clients →
        env.health kv.2 = .ok true →
        env.call name inp = .exn e →
        execute_tool_directly env (.str_ name) inp = .ok (errorDict e)) ∧
    (∀ (env : ExecEnv) (dur : Nat → ℚ) (strategy : DetailedStrategy) msg,
        strategy.parse_error = false →
        (∀ st ∈ strategy.steps, pyHashable st.tool = true) →
        (∀ kv ∈ env.available_tools, kv.2 ∈ env.clients) →
        ∃ s2 tr, execute_strategy env dur strategy msg = .ok (s2, tr) ∧
          tr.length = strategy.steps.length ∧
          (∀ st ∈ s2.steps, st.output.isSome = true) ∧
          s2.steps.map (fun st => st.input)
            = (specStepInputs msg (s2.steps.map (fun st => st.output.getD .none_))).map some) := by
  refine ⟨?_, ?_, ?_, ?_, ?_⟩
  · intro env name inp h1
    simp [execute_tool_directly, pyHashable, pyStrAtom, h1, errorDict]
  · intro env name inp h1 h2
    simp [execute_tool_directly, pyHashable, pyStrAtom, h1, h2, errorDict]
  · intro env name inp kv h2 hkv hcl hh
    have hmem : kv ∈ env.available_tools := List.mem_of_find?_eq_some hkv
    have hp := List.find?_some hkv
    have h1 : env.available_tools.any (fun kv2 => pyKeyMatches (.str_ name) kv2.1) = true :=
      List.any_eq_true.mpr ⟨kv, hmem, hp⟩
    have hany : env.clients.any (fun c => c == kv.2) = true :=
      List.any_eq_true.mpr ⟨kv.2, hcl, by simp⟩
    simp [execute_tool_directly, pyHashable, h1, h2, hkv, hany, hh, errorDict]
  · intro env name inp kv e h2 hkv hcl hh hc
    have hmem : kv ∈ env.available_tools := List.mem_of_find?_eq_some hkv
    have hp := List.find?_some hkv
    have h1 : env.available_tools.any (fun kv2 => pyKeyMatches (.str_ name) kv2.1) = true :=
      List.any_eq_true.mpr ⟨kv, hmem, hp⟩
    have hany : env.clients.any (fun c => c == kv.2) = true :=
      List.any_eq_true.mpr ⟨kv.2, hcl, by simp⟩
    simp [execute_tool_directly, pyHashable, pyStrAtom, h1, h2, hkv, hany, hh, hc, errorDict]
  · intro env dur strategy msg hpe hht hwf
    obtain ⟨steps2, tr, hexec, htools, htr, hout, hin⟩ :=
      execSteps_spec env dur hwf strategy.steps 0 msg hht
    refine ⟨{ strategy with steps := steps2 }, tr, ?_, ?_, ?_, ?_⟩
    · unfold execute_strategy
      rw [hpe]
      simp only [Bool.false_eq_true, if_false, hexec]
    · rw [htr, List.length_map]
      have := congrArg List.length htools
      simpa using this
    · exact hout
    · exact hin

/-- C6 witness: each failure mode at a concrete environment, plus a concrete
run whose second step receives the first step's error payload as input. -/
theorem step_failure_recorded_and_execution_continues_witness :
    execute_tool_directly envOk (.str_ "missing_tool") "入力"
      = .ok (errorDict "Tool \x27missing_tool\x27 not available") ∧
    execute_tool_directly envNotEnabled (.str_ "get_product_details") "入力"
      = .ok (errorDict "Tool \x27get_product_details\x27 not enabled") ∧
    execute_tool_directly envDown (.str_ "get_product_details") "入力"
      = .ok (errorDict "MCP server unavailable") ∧
    execute_tool_directly envRaise (.str_ "get_product_details") "入力"
      = .ok (errorDict "Connection timeout") ∧
    ∃ s2 tr,
      execute_strategy envRaise (fun _ => (0 : ℚ)) strategyTwoSteps "質問" = .ok (s2, tr) ∧
      tr.length = strategyTwoSteps.steps.length ∧
      (∀ st ∈ s2.steps, st.output.isSome = true) ∧
      s2.steps.map (fun st => st.input)
        = (specStepInputs "質問" (s2.steps.map (fun st => st.output.getD .none_))).map some :=
  ⟨step_failure_recorded_and_execution_continues.1 envOk "missing_tool" "入力" (by decide),
   step_failure_recorded_and_execution_continues.2.1 envNotEnabled "get_product_details" "入力"
     (by decide) (by decide),
   step_failure_recorded_and_execution_continues.2.2.1 envDown "get_product_details" "入力"
     ("get_product_details", "productmaster") (by decide) (by decide) (by decide) rfl,
   step_failure_recorded_and_execution_continues.2.2.2.1 envRaise "get_product_details" "入力"
     ("get_product_details", "productmaster") "Connection timeout"
     (by decide) (by decide) (by decide) rfl rfl,
   step_failure_recorded_and_execution_continues.2.2.2.2 envRaise (fun _ => (0 : ℚ))
     strategyTwoSteps "質問" rfl (by decide) (by decide)⟩

/- ===================== Planner lemmas ===================== -/

theorem is_executed_of_all_timed (s : DetailedStrategy) (hne : s.steps ≠ [])
    (h : ∀ st ∈ s.steps, st.execution_time_ms = some 0) : s.is_executed = true := by
  unfold DetailedStrategy.is_executed
  rcases hs : s.steps with _ | ⟨st, rest⟩
  · exact absurd hs hne
  · simp only [List.isEmpty_cons, Bool.false_eq_true, if_false, List.all_eq_true]
    intro st2 hst2
    rw [h st2 (by rw [hs]; exact hst2)]
    rfl

theorem synthRoute_toolResult (s : DetailedStrategy) (hpe : s.parse_error = false)
    (hne : s.steps ≠ []) (hex : s.is_executed = true) : synthRoute s = .toolResult := by
  unfold synthRoute
  rw [hpe, hex]
  rcases hs : s.steps with _ | ⟨st, rest⟩
  · exact absurd hs hne
  · simp

/- ===================== C2 ===================== -/

/-- C2: when the planning response fails JSON parsing and the repair flow is
operational (the repair prompt exists and is non-empty), `plan_strategy`
makes exactly one repair LLM call, parses the repaired text exactly once
(the event trace is exactly planning call, first parse, repair call, second
parse), and when that parse also fails it returns without raising, with
`parse_error` true, an empty steps list, the parse-error message stored, and
the raw unparsed response kept on the strategy. -/
theorem plan_strategy_single_repair_then_fail (env : PlanEnv) (s0 : DetailedStrategy)
    (bp d resp e1 fp e2 : String)
    (h1 : env.plan_prompt = .ok bp) (h2 : bp ≠ "")
    (h3 : generate_tools_description env.tools = .ok d)
    (h4 : env.llm_response = .ok resp)
    (h5 : env.loads resp = .error e1)
    (h6 : env.fix_prompt = .ok fp) (h7 : fp ≠ "")
    (h8 : env.loads (fix_parse_error env e1 resp).1 = .error e2) :
    ∃ s, plan_strategy env s0 =
        .ok (s, [.llmCall, .parseAttempt resp, .repairLLMCall,
                 .parseAttempt (fix_parse_error env e1 resp).1]) ∧
      s.parse_error = true ∧
      s.steps = [] ∧
      s.parse_error_message = some ("修正後も解析失敗: " ++ e2) ∧
      s.raw_response = some resp := by
  have hfixev : (fix_parse_error env e1 resp).2 = [.repairLLMCall] := by
    unfold fix_parse_error
    simp only [h6]
    rw [if_neg h7]
    cases env.fix_llm e1 resp with
    | error e => rfl
    | ok t => rfl
  refine ⟨{ s0 with steps := [], strategy_llm_prompt := some (bp ++ "\r\n\r\n## 利用可能なMCPツール\r\n" ++ d), strategy_llm_response := some resp, raw_response := some resp, parse_error := true, parse_error_message := some ("修正後も解析失敗: " ++ e2) }, ?_, rfl, rfl, rfl, rfl⟩
  unfold plan_strategy
  simp only [h1]
  rw [if_neg h2]
  simp only [h3, h4, h5, h8, hfixev]
  rfl

/-- C2 witness: the concrete non-JSON planner environment. -/
theorem plan_strategy_single_repair_then_fail_witness :
    ∃ s, plan_strategy envParseFail { steps := [] } =
        .ok (s, [.llmCall, .parseAttempt "JSONでは回答できません。", .repairLLMCall,
                 .parseAttempt (fix_parse_error envParseFail
                   "Expecting value: line 1 column 1 (char 0)" "JSONでは回答できません。").1]) ∧
      s.parse_error = true ∧
      s.steps = [] ∧
      s.parse_error_message
        = some ("修正後も解析失敗: " ++ "Expecting value: line 1 column 1 (char 0)") ∧
      s.raw_response = some "JSONでは回答できません。" :=
  plan_strategy_single_repair_then_fail envParseFail { steps := [] }
    "あなたは戦略立案エンジンです。" "現在利用可能なMCPツールはありません。"
    "JSONでは回答できません。" "Expecting value: line 1 column 1 (char 0)"
    "厳密なJSONのみで再出力してください。" "Expecting value: line 1 column 1 (char 0)"
    rfl (by decide) rfl rfl rfl rfl (by decide) rfl

/- ===================== C7 ===================== -/

/-- C7 counterexample: a planner LLM response that parses as a top-level JSON
array makes `plan_strategy` raise AttributeError (only JSONDecodeError is
caught), instead of treating it as a parse failure subject to the repair
flow. -/
theorem plan_strategy_raises_on_json_array_response :
    plan_strategy envArrayResponse { steps := [] }
      = .error "AttributeError: \x27list\x27 object has no attribute \x27get\x27" := rfl

/-- C7 (amended): a planner response that parses as JSON with a non-object top
level makes `plan_strategy` raise (the repair flow handles only JSON decode
errors), and the empty steps array is not the only accepted no-tool shape:
any JSON object without a "steps" key is accepted as a zero-step plan
without a parse error. -/
theorem plan_strategy_shape_handling (env : PlanEnv) (s0 : DetailedStrategy)
    (bp d resp : String) (v : PyVal)
    (h0 : s0.parse_error = false)
    (h1 : env.plan_prompt = .ok bp) (h2 : bp ≠ "")
    (h3 : generate_tools_description env.tools = .ok d)
    (h4 : env.llm_response = .ok resp)
    (h5 : env.loads resp = .ok v) :
    ((∀ kvs, v ≠ .dict_ kvs) → ∃ e, plan_strategy env s0 = .error e) ∧
    (∀ kvs, v = .dict_ kvs → kvs.find? (fun kv => kv.1 == "steps") = none →
      ∃ s evs, plan_strategy env s0 = .ok (s, evs) ∧ s.steps = [] ∧
        s.parse_error = false) := by
  constructor
  · intro hnd
    unfold plan_strategy
    simp only [h1]
    rw [if_neg h2]
    simp only [h3, h4, h5]
    cases v with
    | dict_ kvs => exact absurd rfl (hnd kvs)
    | none_ => exact ⟨_, rfl⟩
    | bool_ b => exact ⟨_, rfl⟩
    | int_ n => exact ⟨_, rfl⟩
    | str_ s => exact ⟨_, rfl⟩
    | list_ xs => exact ⟨_, rfl⟩
  · intro kvs hv hsteps
    subst hv
    have hget : pyDictGet kvs "steps" (.list_ []) = .list_ [] := by
      unfold pyDictGet
      rw [hsteps]
    refine ⟨{ s0 with steps := [], strategy_llm_prompt := some (bp ++ "\r\n\r\n## 利用可能なMCPツール\r\n" ++ d), strategy_llm_response := some resp, raw_response := some resp }, [.llmCall, .parseAttempt resp], ?_, rfl, h0⟩
    unfold plan_strategy
    simp only [h1]
    rw [if_neg h2]
    simp only [h3, h4, h5, pyGetSteps, hget]
    rfl

/-- C7 witness for the amended theorem: the array response raises; the
steps-less object is accepted as a zero-step plan. -/
theorem plan_strategy_shape_handling_witness :
    (∃ e, plan_strategy envArrayResponse { steps := [] } = .error e) ∧
    (∃ s evs, plan_strategy envObjNoSteps { steps := [] } = .ok (s, evs) ∧ s.steps = [] ∧
      s.parse_error = false) :=
  ⟨(plan_strategy_shape_handling envArrayResponse { steps := [] }
      "あなたは戦略立案エンジンです。" "現在利用可能なMCPツールはありません。" "[]"
      (.list_ []) rfl rfl (by decide) rfl rfl rfl).1
      (fun kvs h => PyVal.noConfusion h),
   (plan_strategy_shape_handling envObjNoSteps { steps := [] }
      "あなたは戦略立案エンジンです。" "現在利用可能なMCPツールはありません。" "OBJ"
      (.dict_ [("plan", .str_ "なし")]) rfl rfl (by decide) rfl rfl rfl).2
      [("plan", .str_ "なし")] rfl rfl⟩

/- ===================== C10 ===================== -/

/-- C10 (code bug): the step-materialization loop writes
`execution_time_ms=0` and `step_execution_debug={}` (strategy_engine.py
lines 80-88), but `models.DetailedStep` declares `debug_info`, not
`step_execution_debug`, so the dataclass constructor raises TypeError —
uncaught, since only json.JSONDecodeError is handled. A well-formed
one-step plan response therefore makes `plan_strategy` raise instead of
producing a non-empty strategy, so the claimed invariant about
planner-produced non-empty strategies is about a state the code can never
reach. -/
theorem plan_strategy_raises_on_nonempty_steps :
    envOneStepPlan.loads "PLAN_JSON"
        = .ok (.dict_ [("steps", .list_
            [.dict_ [("step", .int_ 1), ("tool", .str_ "get_product_details"),
                     ("reason", .str_ "商品検索が必要")]])]) ∧
    plan_strategy envOneStepPlan { steps := [] }
      = .error "TypeError: __init__() got an unexpected keyword argument \x27step_execution_debug\x27" :=
  ⟨rfl, rfl⟩

/- ===================== C4 ===================== -/

/-- C4 (code bug): an enabled tool makes the tool-description builder read the
non-existent `MCPTool.system_prompt` attribute and raise AttributeError, so
no block listing tools can ever be built; moreover the filter at
strategy_engine.py:169 consults only `enabled`, so this enabled-but-
unavailable tool is not filtered out, contradicting the claimed
`enabled ∧ available` filtering. -/
theorem tools_description_raises_on_enabled_tool :
    toolA.enabled = true ∧ toolA.available = false ∧
    generate_tools_description [("get_product_details", toolA)]
      = .error "AttributeError: \x27MCPTool\x27 object has no attribute \x27system_prompt\x27" :=
  ⟨rfl, rfl, rfl⟩

/- ===================== C9 ===================== -/

theorem assocFind_mem (m : List (String × MCPTool)) (k : String) (t : MCPTool)
    (h : assocFind m k = some t) : (k, t) ∈ m := by
  induction m with
  | nil => exact absurd h (by simp [assocFind])
  | cons hd tl ih =>
      by_cases hk : (hd.1 == k) = true
      · rw [assocFind_cons, if_pos hk] at h
        have ht : hd.2 = t := by injection h
        have hk2 : hd.1 = k := by simpa using hk
        have : (k, t) = hd := by rw [← hk2, ← ht]
        rw [this]
        exact List.mem_cons_self hd tl
      · rw [assocFind_cons, if_neg hk] at h
        exact List.mem_cons_of_mem _ (ih h)

theorem mem_enabled_of_avail (m : List (String × MCPTool)) (k : String) (t : MCPTool)
    (hm : (k, t) ∈ m) (ha : t.available = true) :
    k ∈ initialize_enabled_status m := by
  unfold initialize_enabled_status
  exact List.mem_map.mpr ⟨(k, t), List.mem_filter.mpr ⟨hm, ha⟩, rfl⟩

theorem enabled_subset_keys (m : List (String × MCPTool)) :
    ∀ k ∈ initialize_enabled_status m, k ∈ m.map Prod.fst := by
  intro k hk
  unfold initialize_enabled_status at hk
  obtain ⟨kv, hkv, hfst⟩ := List.mem_map.mp hk
  exact List.mem_map.mpr ⟨kv, (List.mem_filter.mp hkv).1, hfst⟩

theorem enabled_iff_of_nodup (m : List (String × MCPTool))
    (hnd : (m.map Prod.fst).Nodup) (k : String) :
    k ∈ initialize_enabled_status m ↔
      ∃ t, assocFind m k = some t ∧ t.available = true := by
  induction m with
  | nil => simp [initialize_enabled_status, assocFind]
  | cons hd tl ih =>
      rw [List.map_cons] at hnd
      have hnd2 : (tl.map Prod.fst).Nodup := (List.nodup_cons.mp hnd).2
      have hhd : hd.1 ∉ tl.map Prod.fst := (List.nodup_cons.mp hnd).1
      by_cases hk : (hd.1 == k) = true
      · have hk2 : hd.1 = k := by simpa using hk
        constructor
        · intro hmem
          refine ⟨hd.2, by rw [assocFind_cons, if_pos hk], ?_⟩
          cases hav : hd.2.available with
          | true => rfl
          | false =>
              exfalso
              apply hhd
              have hmem2 : k ∈ initialize_enabled_status tl := by
                unfold initialize_enabled_status at hmem ⊢
                simpa [List.filter_cons, hav] using hmem
              rw [hk2]
              exact enabled_subset_keys tl k hmem2
        · rintro ⟨t, hft, hav⟩
          rw [assocFind_cons, if_pos hk] at hft
          have ht : hd.2 = t := by injection hft
          unfold initialize_enabled_status
          rw [List.filter_cons, if_pos (by rw [ht]; exact hav)]
          rw [List.map_cons]
          exact List.mem_cons.mpr (Or.inl hk2.symm)
      · have hk2 : hd.1 ≠ k := by simpa using hk
        rw [assocFind_cons, if_neg hk]
        have hiff := ih hnd2
        constructor
        · intro hmem
          apply hiff.mp
          unfold initialize_enabled_status at hmem ⊢
          cases hav : hd.2.available with
          | true =>
              rw [List.filter_cons, if_pos hav, List.map_cons] at hmem
              rcases List.mem_cons.mp hmem with hh | hh
              · exact absurd hh.symm hk2
              · exact hh
          | false =>
              rw [List.filter_cons, if_neg (by rw [hav]; exact Bool.false_ne_true)] at hmem
              exact hmem
        · intro hex
          have hmem := hiff.mpr hex
          unfold initialize_enabled_status at hmem ⊢
          cases hav : hd.2.available with
          | true =>
              rw [List.filter_cons, if_pos hav, List.map_cons]
              exact List.mem_cons_of_mem _ hmem
          | false =>
              rw [List.filter_cons, if_neg (by rw [hav]; exact Bool.false_ne_true)]
              exact hmem

theorem assocInsert_keys_nodup (m : List (String × MCPTool)) (k : String) (v : MCPTool)
    (hnd : (m.map Prod.fst).Nodup) : ((assocInsert m k v).map Prod.fst).Nodup := by
  unfold assocInsert
  by_cases ha : m.any (fun kv => kv.1 == k) = true
  · rw [if_pos ha]
    have hkeys : (m.map (fun kv => if kv.1 == k then (k, v) else kv)).map Prod.fst
        = m.map Prod.fst := by
      rw [List.map_map]
      apply List.map_congr_left
      intro kv _
      by_cases hkv : kv.1 = k
      · simp [hkv]
      · simp [hkv]
    rw [hkeys]
    exact hnd
  · rw [if_neg ha]
    have hnot : k ∉ m.map Prod.fst := by
      intro hmem
      obtain ⟨kv, hkv, hfst⟩ := List.mem_map.mp hmem
      exact ha (List.any_eq_true.mpr ⟨kv, hkv, by simp [hfst]⟩)
    rw [List.map_append]
    simp [List.nodup_append, hnd, hnot]

theorem load_keys_nodup (rows : List CatalogRow) :
    ((load_registered_tools rows).map Prod.fst).Nodup := by
  have hgen : ∀ (rs : List CatalogRow) (m : List (String × MCPTool)),
      (m.map Prod.fst).Nodup → ((rs.foldl loadRow m).map Prod.fst).Nodup := by
    intro rs
    induction rs with
    | nil => intro m h; exact h
    | cons r rest ih =>
        intro m h
        exact ih _ (assocInsert_keys_nodup m _ _ h)
  exact hgen rows [] (by simp)

theorem checkServer_keys (m : List (String × MCPTool)) (s : String) (ok : Bool) :
    (checkServer m s ok).map Prod.fst = m.map Prod.fst := by
  cases ok with
  | false => rfl
  | true =>
      unfold checkServer
      rw [if_pos rfl, List.map_map]
      apply List.map_congr_left
      intro kv _
      by_cases hs : kv.2.mcp_server_name = s
      · simp [hs]
      · simp [hs]

theorem mem_checkServer_src (m : List (String × MCPTool)) (s : String) (ok : Bool) :
    ∀ kv ∈ checkServer m s ok, kv.2.available = true ∨ kv ∈ m := by
  intro kv hkv
  cases ok with
  | false => exact Or.inr hkv
  | true =>
      unfold checkServer at hkv
      rw [if_pos rfl] at hkv
      obtain ⟨kv0, hkv0, hg⟩ := List.mem_map.mp hkv
      by_cases hs : (kv0.2.mcp_server_name == s) = true
      · left
        rw [← hg]
        simp [hs]
      · right
        rw [← hg]
        simpa [hs] using hkv0

theorem mem_checkServer_avail (m : List (String × MCPTool)) (s : String) :
    ∀ kv ∈ checkServer m s true, kv.2.mcp_server_name = s → kv.2.available = true := by
  intro kv hkv hsv
  unfold checkServer at hkv
  rw [if_pos rfl] at hkv
  obtain ⟨kv0, hkv0, hg⟩ := List.mem_map.mp hkv
  by_cases hs : (kv0.2.mcp_server_name == s) = true
  · rw [← hg]
    simp [hs]
  · exfalso
    apply hs
    have hkv0eq : kv = kv0 := by
      rw [← hg]
      simp [hs]
    rw [hkv0eq] at hsv
    simp [hsv]

/-- C9 counterexample: a catalog row that already carries `available: true`
for a tool on the never-probed, never-responding server "Dead MCP" ends up in
the enabled set after `initialize()`, refuting "every tool on a
non-responding server is left out of the enabled set". -/
theorem tool_on_dead_server_can_remain_enabled :
    (managerInit [deadServerRow] (fun _ => false)).2 = ["ghost_tool"] := rfl

/-- C9 (amended): after `initialize()` the enabled set is exactly the keys
whose tool has `available` true, and every tool on a probed live server
(ProductMaster MCP or CRM MCP) is auto-enabled regardless of the catalog's
`enabled` field; but the availability probe only ever sets `available` to
true, so a tool whose catalog row already carried `available: true` stays
enabled even when its server never responded. -/
theorem initialize_enabled_iff_available (rows : List CatalogRow) (live : String → Bool) :
    (∀ k, k ∈ (managerInit rows live).2 ↔
      ∃ t, assocFind (managerInit rows live).1 k = some t ∧ t.available = true) ∧
    (∀ k t, assocFind (managerInit rows live).1 k = some t →
      (t.mcp_server_name = "ProductMaster MCP" ∨ t.mcp_server_name = "CRM MCP") →
      live t.mcp_server_name = true →
      k ∈ (managerInit rows live).2) := by
  have hm1 : (managerInit rows live).1
      = checkServer (checkServer (load_registered_tools rows) "ProductMaster MCP"
          (live "ProductMaster MCP")) "CRM MCP" (live "CRM MCP") := rfl
  have hnd : ((managerInit rows live).1.map Prod.fst).Nodup := by
    rw [hm1, checkServer_keys, checkServer_keys]
    exact load_keys_nodup rows
  constructor
  · intro k
    exact enabled_iff_of_nodup (managerInit rows live).1 hnd k
  · intro k t hf hsv hlive
    have hmem : (k, t) ∈ (managerInit rows live).1 := assocFind_mem _ _ _ hf
    have havail : t.available = true := by
      rw [hm1] at hmem
      cases hsv with
      | inl hPM =>
          rcases mem_checkServer_src _ "CRM MCP" (live "CRM MCP") (k, t) hmem with ha | hm2
          · exact ha
          · rw [hPM] at hlive
            rw [hlive] at hm2
            exact mem_checkServer_avail _ "ProductMaster MCP" (k, t) hm2 hPM
      | inr hCRM =>
          rw [hCRM] at hlive
          rw [hlive] at hmem
          exact mem_checkServer_avail _ "CRM MCP" (k, t) hmem hCRM
    exact mem_enabled_of_avail (managerInit rows live).1 k t hmem havail

/-- C9 witness for the amended theorem: with a responding ProductMaster
server, a tool whose catalog row says `enabled: false` is still in the
enabled set. -/
theorem initialize_enabled_iff_available_witness :
    "pm_tool" ∈ (managerInit [pmDisabledRow] (fun _ => true)).2 :=
  (initialize_enabled_iff_available [pmDisabledRow] (fun _ => true)).2 "pm_tool"
    { tool_key := "pm_tool", tool_name := "PM", description := "",
      mcp_server_name := "ProductMaster MCP", remarks := none, enabled := false,
      available := true }
    rfl (Or.inl rfl) rfl

end AIChat
